import Mathlib

/-!
Verification of the figma-export-svg export pipeline.

Shallow embedding of the repository core (src/util.ts, src/core.ts a.k.a.
shared.ts, src/index.ts).  JavaScript `Map`s are embedded as association
lists with `Map.set` semantics (`mapSet`); the remote Figma service, the
HTTP fetch and the file system are passed in as explicit function
parameters returning `Except`; JavaScript truthiness of optional strings /
numbers is made explicit (`optStrTruthy`, `scaleTruthy`).
-/

set_option maxRecDepth 8000

deriving instance DecidableEq for Except

namespace FigmaExportSVG

/-- JavaScript `Map.set` on an association list: if the key is already
present, replace its value in place (keeping its position); otherwise
append the new pair at the end. -/
def mapSet (m : List (String × String)) (k v : String) : List (String × String) :=
  if m.any (fun p => p.1 == k) then
    m.map (fun p => if p.1 == k then (p.1, v) else p)
  else m ++ [(k, v)]

/-- JavaScript `Map.get` on an association list. -/
def mapGet (m : List (String × String)) (k : String) : Option String :=
  (m.find? (fun p => p.1 == k)).map Prod.snd

/-- `for (const [k, v] of src) dst.set(k, v)` — merge the pairs of `src` into
`acc`, later writes winning on key collision. -/
def mergeMap (acc src : List (String × String)) : List (String × String) :=
  src.foldl (fun a p => mapSet a p.1 p.2) acc

/-- Number of occurrences of a string in a list (used for the
unique-identifier reasoning about the document tree). -/
def countOcc (s : String) : List String → Nat
  | [] => 0
  | x :: rest => (if x = s then 1 else 0) + countOcc s rest

/-- JavaScript truthiness of an optional string: `undefined` and `""` are
falsy. -/
def optStrTruthy (o : Option String) : Bool := o.getD "" != ""

/-- A node of the remote document tree (`SubcanvasNode`).  `visible` is
optional (absent means visible); `exportSettings` is the optional list of
export settings, each represented by its `format` field; `children` is
present only for container kinds (the JavaScript `in` test for a `children` field). -/
inductive DocumentNode : Type where
  | mk (id name type : String) (visible : Option Bool)
      (exportSettings : Option (List String))
      (children : Option (List DocumentNode)) : DocumentNode

def DocumentNode.id : DocumentNode → String
  | .mk i _ _ _ _ _ => i

def DocumentNode.name : DocumentNode → String
  | .mk _ nm _ _ _ _ => nm

def DocumentNode.children : DocumentNode → Option (List DocumentNode)
  | .mk _ _ _ _ _ ch => ch

/-- The match test of `collectSVGComponents` (src/util.ts line 15-19):
the node type must equal `COMPONENT`, the visibility flag must not be
strictly equal to `false`, and `exportSettings` must contain a setting whose
format equals `SVG`. -/
def isMatch : DocumentNode → Bool
  | .mk _ _ ty vis es _ =>
    ty == "COMPONENT" && vis != some false && (es.getD []).any (fun f => f == "SVG")

mutual

/-- The `for (const node of nodes)` loop of `collectSVGComponents`,
threading the discovered map. -/
def collectSVGForest : List DocumentNode → List (String × String) → List (String × String)
  | [], acc => acc
  | n :: rest, acc => collectSVGForest rest (collectSVGNode n acc)

/-- One iteration of the loop body of `collectSVGComponents`
(src/util.ts lines 14-27): on a match record `(id → name)`; otherwise, when
the node has a non-empty `children` list, scan the children afresh and
merge their discoveries via `Map.set`. -/
def collectSVGNode : DocumentNode → List (String × String) → List (String × String)
  | .mk i nm ty vis es ch, acc =>
    if isMatch (.mk i nm ty vis es ch) then mapSet acc i nm
    else
      match ch with
      | some cs =>
        if cs.length != 0 then mergeMap acc (collectSVGForest cs []) else acc
      | none => acc

end

/-- `collectSVGComponents` (src/util.ts lines 6-31).  The input is
`Option`al to model an `undefined` argument; `!nodes?.length` returns the
empty map for an undefined or empty input. -/
def collectSVGComponents (nodes : Option (List DocumentNode)) : List (String × String) :=
  match nodes with
  | none => []
  | some ns => if ns.length = 0 then [] else collectSVGForest ns []

/-- Modelled from the spec: a node is a match iff its kind is the
exportable-component kind, its visibility flag is not explicitly false, and
it declares at least one export setting whose format equals the vector
format. -/
def specIsMatch : DocumentNode → Prop
  | .mk _ _ ty vis es _ =>
    ty = "COMPONENT" ∧ vis ≠ some false ∧ ∃ f ∈ es.getD [], f = "SVG"

instance : DecidablePred specIsMatch := by
  intro n
  cases n with
  | mk i nm ty vis es ch => unfold specIsMatch; infer_instance

mutual

/-- Modelled from the spec: depth-first traversal over a sequence of
nodes, merging the discoveries of each node into the running map. -/
def scanSpecForest : List DocumentNode → List (String × String) → List (String × String)
  | [], acc => acc
  | n :: rest, acc => scanSpecForest rest (scanSpecNode n acc)

/-- Modelled from the spec: on a match record `(identifier → display
name)` and do not descend; on a non-match recurse into the children (if
any) and merge the discovered pairs last-write-wins. -/
def scanSpecNode : DocumentNode → List (String × String) → List (String × String)
  | .mk i nm ty vis es ch, acc =>
    if specIsMatch (.mk i nm ty vis es ch) then mapSet acc i nm
    else
      match ch with
      | some cs => mergeMap acc (scanSpecForest cs [])
      | none => acc

end

/-- Modelled from the spec: `scan`; empty or undefined input yields an
empty map. -/
def scanSpec (nodes : Option (List DocumentNode)) : List (String × String) :=
  match nodes with
  | none => []
  | some ns => scanSpecForest ns []

mutual

/-- All identifiers appearing anywhere in the subtree of a node (the node
itself included). -/
def allIdsNode : DocumentNode → List String
  | .mk i _ _ _ _ ch =>
    i :: (match ch with
          | some cs => allIdsForest cs
          | none => [])

def allIdsForest : List DocumentNode → List String
  | [] => []
  | n :: rest => allIdsNode n ++ allIdsForest rest

end

mutual

/-- Identifiers of strict descendants of matched nodes: below a matched
node every identifier of its subtree is collected; below a non-match the
search continues. -/
def matchedDescIdsNode : DocumentNode → List String
  | .mk i nm ty vis es ch =>
    match ch with
    | some cs =>
      if isMatch (.mk i nm ty vis es (some cs)) then allIdsForest cs
      else matchedDescIdsForest cs
    | none => []

def matchedDescIdsForest : List DocumentNode → List String
  | [] => []
  | n :: rest => matchedDescIdsNode n ++ matchedDescIdsForest rest

end

mutual

/-- Identifiers that the pruned depth-first scan can ever record: a
matched node contributes its own identifier only; a non-match contributes
the contributions of its children. -/
def collectedIdsNode : DocumentNode → List String
  | .mk i nm ty vis es ch =>
    if isMatch (.mk i nm ty vis es ch) then [i]
    else
      match ch with
      | some cs => collectedIdsForest cs
      | none => []

def collectedIdsForest : List DocumentNode → List String
  | [] => []
  | n :: rest => collectedIdsNode n ++ collectedIdsForest rest

end

/-- The slicing loop of `getFigmaFileRequestBatches` (src/core.ts lines
80-82): `for (let i = 0; i < imageIds.length; i += batchSize)
batches.push(imageIds.slice(i, i + batchSize))`, rendered as repeated
take/drop.  `fuel` bounds the number of iterations (instantiated with the
list length; for `batchSize = 0` the source loop would not terminate). -/
def batchGo (batchSize : Nat) : Nat → List String → List (List String)
  | 0, _ => []
  | fuel + 1, ids =>
    if ids.isEmpty then []
    else ids.take batchSize :: batchGo batchSize fuel (ids.drop batchSize)

/-- `getFigmaFileRequestBatches` (src/core.ts lines 75-85): batch the
keys of the candidates map, default batch size 300. -/
def getFigmaFileRequestBatches (svgComponents : List (String × String))
    (batchSize : Nat := 300) : List (List String) :=
  let imageIds := svgComponents.map Prod.fst
  batchGo batchSize imageIds.length imageIds

/-- The configuration value (shape reconstructed from its uses in
src/index.ts and src/core.ts and the data model of the spec; the `./config`
module itself is not part of the snapshot).  Optional numbers/strings keep
their JavaScript truthiness via `scaleTruthy` / `optStrTruthy`; the scale
factor is embedded as a rational. -/
structure Config where
  outputDirectory : String
  clearOutputDirectory : Bool
  accessToken : String
  fileId : String
  nodeIds : Option (List String)
  fileNameStrategy : String
  projectId : Option String
  svgoConfig : Option String
  svgoConfigPath : Option String
  scale : Option Rat
  outlineText : Option Bool
  includeId : Option Bool
  includeNodeId : Option Bool
  simplifyStroke : Option Bool
  contentsOnly : Option Bool
  useAbsoluteBounds : Option Bool
deriving Repr, DecidableEq

/-- JavaScript truthiness of an optional number: `undefined`, `0` (and
`NaN`, not representable here) are falsy. -/
def scaleTruthy (o : Option Rat) : Bool := o.getD 0 != 0

/-- JavaScript `String.prototype.trim`: drop whitespace from both ends. -/
def jsTrim (s : String) : String :=
  ⟨((s.data.dropWhile Char.isWhitespace).reverse.dropWhile Char.isWhitespace).reverse⟩

/-- The global dash-to-colon replacement applied to each node id (a
JavaScript `replace` with a global dash pattern). -/
def dashToColon (s : String) : String :=
  ⟨s.data.map (fun c => if c = '-' then ':' else c)⟩

/-- `cleanNodeIds` (src/core.ts lines 22-32): trim each entry, replace
every dash with a colon, drop entries that become empty. -/
def cleanNodeIds (nodeIds : List String) : List String :=
  nodeIds.foldl
    (fun acc curr =>
      let cleaned := dashToColon (jsTrim curr)
      if cleaned != "" then acc ++ [cleaned] else acc)
    []

/-- `validateAndCleanConfig` (src/core.ts lines 34-56).  Thrown errors
become `Except.error` with the thrown message. -/
def validateAndCleanConfig (config : Config) : Except String Config :=
  let config :=
    match config.nodeIds with
    | some ids => { config with nodeIds := some (cleanNodeIds ids) }
    | none => config
  if config.outputDirectory = "" then
    .error "Missing required parameter: output path (-o /path/to/output)"
  else if config.accessToken = "" then
    .error "Missing required parameter: Figma personal access token (-a figd_sadasdjl...)"
  else if config.fileId = "" then
    .error "Missing required parameter: Figma file ID (-f oQ5VCtq1r0KrPx3VpqMSX5)"
  else if scaleTruthy config.scale = true ∧
      (config.scale.getD 0 < mkRat 1 100 ∨ 4 < config.scale.getD 0) then
    .error "Invalid Figma image scale value, must be between 0.01 and 4"
  else .ok config

/-- Response of the remote `getImages` endpoint: an optional error field
and a mapping from node identifier to nullable render URL (in
`Object.entries` order). -/
structure GetImagesResult where
  err : Option String
  images : List (String × Option String)
deriving Repr, DecidableEq

/-- `getFigmaFileBatchImages` (src/core.ts lines 87-108).  The remote call
is the injected `api` function; a transport failure is `Except.error`, and
a truthy `err` field of a delivered response is rethrown. -/
def getFigmaFileBatchImages (api : Config → List String → Except String GetImagesResult)
    (config : Config) (batch : List String) :
    Except String (List (String × Option String)) :=
  match api config batch with
  | .error e => .error e
  | .ok result =>
    if optStrTruthy result.err then
      .error ("Figma getImages error: " ++ result.err.getD "")
    else .ok result.images

/-- `Promise.all(idBatches.map(...))` over `getFigmaFileBatchImages`:
every batch call is issued; the aggregate fails if any one fails. -/
def batchImagesAll (api : Config → List String → Except String GetImagesResult)
    (config : Config) : List (List String) →
    Except String (List (List (String × Option String)))
  | [] => .ok []
  | b :: rest =>
    match getFigmaFileBatchImages api config b, batchImagesAll api config rest with
    | .error e, _ => .error e
    | .ok _, .error e => .error e
    | .ok imgs, .ok others => .ok (imgs :: others)

/-- The inner `for (const [nodeId, url] of Object.entries(result))` loop of
`getFigmaFileSVGDownloadPaths` (src/core.ts lines 118-132): resolve the
display name of each returned identifier, reject a falsy name or a falsy
URL, record `(name → url)` via `Map.set`. -/
def mergeEntries (svgComponents : List (String × String))
    (acc : List (String × String)) :
    List (String × Option String) → Except String (List (String × String))
  | [] => .ok acc
  | (nodeId, url) :: rest =>
    let svgName := mapGet svgComponents nodeId
    if optStrTruthy svgName = false then
      .error ("No SVG name found for node " ++ nodeId ++
        " returned in get images response. Url: " ++
        (if optStrTruthy url then url.getD "" else "empty"))
    else if optStrTruthy url = false then
      .error ("No URL found for node " ++ nodeId ++ " (" ++ svgName.getD "" ++
        ") returned in get images response")
    else mergeEntries svgComponents (mapSet acc (svgName.getD "") (url.getD "")) rest

/-- The outer `for (const result of results)` loop of
`getFigmaFileSVGDownloadPaths`. -/
def mergeResults (svgComponents : List (String × String))
    (acc : List (String × String)) :
    List (List (String × Option String)) → Except String (List (String × String))
  | [] => .ok acc
  | r :: rest =>
    match mergeEntries svgComponents acc r with
    | .error e => .error e
    | .ok acc2 => mergeResults svgComponents acc2 rest

/-- `getFigmaFileSVGDownloadPaths` (src/core.ts lines 110-139): batch the
candidate identifiers, call the service per batch concurrently, merge every
returned `(identifier → URL)` pair into a map keyed by display name; any
failure is wrapped by the surrounding try/catch. -/
def getFigmaFileSVGDownloadPaths
    (api : Config → List String → Except String GetImagesResult)
    (svgComponents : List (String × String)) (config : Config) :
    Except String (List (String × String)) :=
  match batchImagesAll api config (getFigmaFileRequestBatches svgComponents) with
  | .error e => .error ("Failed to get image data from Figma: " ++ e)
  | .ok results =>
    match mergeResults svgComponents [] results with
    | .error e => .error ("Failed to get image data from Figma: " ++ e)
    | .ok m => .ok m

/-- An HTTP response as seen by `downloadSVG`: success flag, status text
and body (the body stands for both `text()` and `arrayBuffer()`). -/
structure HttpResponse where
  ok : Bool
  statusText : String
  body : String
deriving Repr, DecidableEq

/-- `downloadSVG` (src/util.ts lines 33-56), with the fetch outcome and
the file-system write injected.  Returns the result of the function together
with the list of write attempts `(path, content)` performed, so that the
claim "no write occurs before a success response" is expressible. -/
def downloadSVG (url filePath : String) (fetchRes : Except String HttpResponse)
    (write : String → String → Except String Unit) :
    Except String String × List (String × String) :=
  match fetchRes with
  | .error e =>
    (.error ("Failed to download SVG from " ++ url ++ ": " ++ e), [])
  | .ok response =>
    if response.ok = false then
      (.error ("Failed to download SVG from " ++ url ++ ": " ++
        response.statusText ++ " - " ++ response.body), [])
    else
      match write filePath response.body with
      | .error e =>
        (.error ("Failed to write SVG to " ++ filePath ++ ": " ++ e),
         [(filePath, response.body)])
      | .ok _ => (.ok filePath, [(filePath, response.body)])

/-- `Promise.all`: the ordered list of fulfilled values, or the first
rejection. -/
def promiseAll {α : Type} : List (Except String α) → Except String (List α)
  | [] => .ok []
  | .error e :: _ => .error e
  | .ok a :: rest =>
    match promiseAll rest with
    | .error e => .error e
    | .ok l => .ok (a :: l)

/-- `path.join(outputDir, name)` for our purposes. -/
def pathJoin (dir name : String) : String := dir ++ "/" ++ name

/-- The `svgWrites` list of `downloadAndSaveSVGs` (src/core.ts lines
185-191): one download per map entry, each launched unconditionally with
destination `outputDir / caseStrategy(svgName) + ".svg"`.  The naming
casing function of the strategy and the download are injected (the casing
library is an external collaborator; `download url filePath` abstracts
`downloadSVG`, whose success value is its file path). -/
def svgWritePromises (caseStrategy : String → String)
    (download : String → String → Except String String)
    (svgDownloadPaths : List (String × String)) (outputDir : String) :
    List (Except String String) :=
  svgDownloadPaths.map
    (fun p => download p.2 (pathJoin outputDir (caseStrategy p.1 ++ ".svg")))

/-- `downloadAndSaveSVGs` (src/core.ts lines 177-198): launch every
download, await them all; the aggregate is the ordered list of written
paths, or the first failure. -/
def downloadAndSaveSVGs (caseStrategy : String → String)
    (download : String → String → Except String String)
    (svgDownloadPaths : List (String × String)) (outputDir : String) :
    Except String (List String) :=
  promiseAll (svgWritePromises caseStrategy download svgDownloadPaths outputDir)

/-- The optional SVGO pass of `cli` (src/index.ts lines 194-206) and the
final fall-through (`process.exitCode` defaults to 0). -/
def cliOptimizeStage (config : Config)
    (optimizeAll : Config → List String → Except String Unit)
    (svgWrites : List String) : Nat :=
  if config.svgoConfig.isSome || optStrTruthy config.svgoConfigPath then
    match optimizeAll config svgWrites with
    | .error _ => 1
    | .ok _ => 0
  else 0

/-- The download phase of `cli` (src/index.ts lines 174-192). -/
def cliDownloadStage (config : Config)
    (downloadAll : Config → List (String × String) → Except String (List String))
    (optimizeAll : Config → List String → Except String Unit)
    (svgDownloadPaths : List (String × String)) : Nat :=
  match downloadAll config svgDownloadPaths with
  | .error _ => 1
  | .ok svgWrites => cliOptimizeStage config optimizeAll svgWrites

/-- The output-directory preparation of `cli` (src/index.ts lines
148-164): clear (when configured) and create the output directory. -/
def cliPrepareStage (config : Config)
    (prepareOutputDir : Config → Except String Unit)
    (downloadAll : Config → List (String × String) → Except String (List String))
    (optimizeAll : Config → List String → Except String Unit)
    (svgDownloadPaths : List (String × String)) : Nat :=
  match prepareOutputDir config with
  | .error _ => 1
  | .ok _ => cliDownloadStage config downloadAll optimizeAll svgDownloadPaths

/-- The render-request phase of `cli` (src/index.ts lines 136-146). -/
def cliPathsStage (config : Config)
    (getPaths : Config → List (String × String) → Except String (List (String × String)))
    (prepareOutputDir : Config → Except String Unit)
    (downloadAll : Config → List (String × String) → Except String (List String))
    (optimizeAll : Config → List String → Except String Unit)
    (svgComponents : List (String × String)) : Nat :=
  match getPaths config svgComponents with
  | .error _ => 1
  | .ok svgDownloadPaths =>
    cliPrepareStage config prepareOutputDir downloadAll optimizeAll svgDownloadPaths

/-- The nothing-to-export check of `cli` (src/index.ts lines 123-130):
an empty candidates map sets exit code 0 and returns. -/
def cliScanStage (config : Config)
    (getPaths : Config → List (String × String) → Except String (List (String × String)))
    (prepareOutputDir : Config → Except String Unit)
    (downloadAll : Config → List (String × String) → Except String (List String))
    (optimizeAll : Config → List String → Except String Unit)
    (svgComponents : List (String × String)) : Nat :=
  if svgComponents.length = 0 then 0
  else cliPathsStage config getPaths prepareOutputDir downloadAll optimizeAll svgComponents

/-- The file-load phase of `cli` (src/index.ts lines 110-121). -/
def cliGetFileStage (config : Config)
    (getFile : Config → Except String (List (String × String)))
    (getPaths : Config → List (String × String) → Except String (List (String × String)))
    (prepareOutputDir : Config → Except String Unit)
    (downloadAll : Config → List (String × String) → Except String (List String))
    (optimizeAll : Config → List String → Except String Unit) : Nat :=
  match getFile config with
  | .error _ => 1
  | .ok svgComponents =>
    cliScanStage config getPaths prepareOutputDir downloadAll optimizeAll svgComponents

/-- The exit-code behaviour of `cli` (src/index.ts lines 22-209), with
every remote/disk stage injected as a function returning `Except`:
`getFile` (load the file and scan for components), `getPaths` (render
requester), `prepareOutputDir` (clear and/or create the output
directory), `downloadAll`, `optimizeAll`.  Each early `return` after
`process.exitCode = 1` is a stage returning 1; the fall-through end of the
run leaves the default exit code 0. -/
def cli (rawConfig : Config)
    (getFile : Config → Except String (List (String × String)))
    (getPaths : Config → List (String × String) → Except String (List (String × String)))
    (prepareOutputDir : Config → Except String Unit)
    (downloadAll : Config → List (String × String) → Except String (List String))
    (optimizeAll : Config → List String → Except String Unit) : Nat :=
  match validateAndCleanConfig rawConfig with
  | .error _ => 1
  | .ok config =>
    cliGetFileStage config getFile getPaths prepareOutputDir downloadAll optimizeAll

/-! Concrete example values used to exercise the definitions. -/

/-- A visible COMPONENT exporting SVG, with one (never-visited) child. -/
def exComp : DocumentNode :=
  .mk "1:1" "icon-home" "COMPONENT" none (some ["SVG"])
    (some [.mk "1:9" "vector-child" "VECTOR" none none none])

/-- A non-matching frame containing `exComp`. -/
def exFrame : DocumentNode :=
  .mk "0:1" "Frame" "FRAME" none none (some [exComp])

def exForest : List DocumentNode := [exFrame]

/-- A fully valid configuration. -/
def cfgBase : Config where
  outputDirectory := "/out"
  clearOutputDirectory := false
  accessToken := "figd_token"
  fileId := "oQ5VCtq1r0KrPx3VpqMSX5"
  nodeIds := none
  fileNameStrategy := "kebab"
  projectId := none
  svgoConfig := none
  svgoConfigPath := none
  scale := none
  outlineText := none
  includeId := none
  includeNodeId := none
  simplifyStroke := none
  contentsOnly := none
  useAbsoluteBounds := none

def cfgScaleZero : Config := { cfgBase with scale := some 0 }

def cfgScaleTwo : Config := { cfgBase with scale := some 2 }

def cfgNoToken : Config := { cfgBase with accessToken := "" }

def cfgScaleFive : Config := { cfgBase with scale := some 5 }

def cfgWithIds : Config := { cfgBase with nodeIds := some [" 1-2 ", " "] }

def cfgWithIdsCleaned : Config := { cfgWithIds with nodeIds := some ["1:2"] }

/-- One export candidate. -/
def compsOne : List (String × String) := [("1:1", "icon-home")]

/-- A service that delivers a response with no error and no images at all. -/
def apiNoImages : Config → List String → Except String GetImagesResult :=
  fun _ _ => .ok { err := none, images := [] }

/-- Two distinct identifiers sharing one display name. -/
def compsDup : List (String × String) := [("1:1", "icon"), ("1:2", "icon")]

/-- A service that returns a distinct non-empty URL for every requested
identifier. -/
def apiAllUrls : Config → List String → Except String GetImagesResult :=
  fun _ ids => .ok { err := none, images := ids.map (fun i => (i, some ("https://cdn/" ++ i))) }

/-- A download that always succeeds and returns its file path, like
`downloadSVG`. -/
def downloadOkFn : String → String → Except String String := fun _ f => .ok f

/-- A download that fails on one specific URL. -/
def downloadFailOn (bad : String) : String → String → Except String String :=
  fun u f => if u = bad then .error "HTTP 500" else .ok f

def exDownloadPaths : List (String × String) := [("icon-home", "https://cdn/a")]

/-- Stage stubs used to exercise the CLI exit-code model. -/
def gfNothing : Config → Except String (List (String × String)) := fun _ => .ok []

def gpStub : Config → List (String × String) → Except String (List (String × String)) :=
  fun _ _ => .ok []

def pdStub : Config → Except String Unit := fun _ => .ok ()

def dlStub : Config → List (String × String) → Except String (List String) :=
  fun _ _ => .ok []

def opStub : Config → List String → Except String Unit := fun _ _ => .ok ()

/-- A failed HTTP response (e.g. a 500). -/
def respFail : HttpResponse := { ok := false, statusText := "Internal Server Error", body := "boom" }

/-- A file-system write that always succeeds. -/
def writeOkFn : String → String → Except String Unit := fun _ _ => .ok ()

/-! ### Batch planner (C2) -/

theorem batchGo_flatten (B : Nat) (hB : 0 < B) :
    ∀ (fuel : Nat) (ids : List String), ids.length ≤ fuel →
      (batchGo B fuel ids).flatten = ids := by
  intro fuel
  induction fuel with
  | zero =>
    intro ids h
    have hids : ids = [] := List.length_eq_zero.mp (Nat.le_zero.mp h)
    subst hids
    rfl
  | succ fuel ih =>
    intro ids h
    cases ids with
    | nil => rfl
    | cons x xs =>
      show ((x :: xs).take B :: batchGo B fuel ((x :: xs).drop B)).flatten = x :: xs
      rw [List.flatten_cons]
      have hlen : ((x :: xs).drop B).length ≤ fuel := by
        simp only [List.length_drop, List.length_cons]
        simp only [List.length_cons] at h
        omega
      rw [ih _ hlen]
      exact List.take_append_drop B (x :: xs)

theorem ceil_div_step (n B : Nat) (hB : 0 < B) (hn : 0 < n) :
    (n - B + B - 1) / B + 1 = (n + B - 1) / B := by
  rcases Nat.lt_or_ge n B with h | h
  · have h1 : n - B = 0 := by omega
    have h3 : n + B - 1 = (n - 1) + B := by omega
    rw [h1, Nat.zero_add, h3, Nat.add_div_right _ hB,
      Nat.div_eq_of_lt (by omega), Nat.div_eq_of_lt (by omega)]
  · have h1 : n - B + B - 1 = n - 1 := by omega
    have h3 : n + B - 1 = (n - 1) + B := by omega
    rw [h1, h3, Nat.add_div_right _ hB]

theorem batchGo_length (B : Nat) (hB : 0 < B) :
    ∀ (fuel : Nat) (ids : List String), ids.length ≤ fuel →
      (batchGo B fuel ids).length = (ids.length + B - 1) / B := by
  intro fuel
  induction fuel with
  | zero =>
    intro ids h
    have hids : ids = [] := List.length_eq_zero.mp (Nat.le_zero.mp h)
    subst hids
    simp [batchGo, Nat.div_eq_of_lt (show B - 1 < B by omega)]
  | succ fuel ih =>
    intro ids h
    cases ids with
    | nil => simp [batchGo, Nat.div_eq_of_lt (show B - 1 < B by omega)]
    | cons x xs =>
      show ((x :: xs).take B :: batchGo B fuel ((x :: xs).drop B)).length = _
      have hlen : ((x :: xs).drop B).length ≤ fuel := by
        simp only [List.length_drop, List.length_cons]
        simp only [List.length_cons] at h
        omega
      rw [List.length_cons, ih _ hlen, List.length_drop]
      exact ceil_div_step (x :: xs).length B hB (by simp)

theorem batchGo_mem (B : Nat) (hB : 0 < B) :
    ∀ (fuel : Nat) (ids : List String), ∀ c ∈ batchGo B fuel ids,
      c ≠ [] ∧ c.length ≤ B := by
  intro fuel
  induction fuel with
  | zero => intro ids c hc; simp [batchGo] at hc
  | succ fuel ih =>
    intro ids c hc
    cases ids with
    | nil => simp [batchGo] at hc
    | cons x xs =>
      have hstep : batchGo B (fuel + 1) (x :: xs)
          = (x :: xs).take B :: batchGo B fuel ((x :: xs).drop B) := rfl
      rw [hstep] at hc
      rcases List.mem_cons.mp hc with h | h
      · subst h
        refine ⟨?_, by rw [List.length_take]; omega⟩
        intro hnil
        have : ((x :: xs).take B).length = 0 := by rw [hnil]; rfl
        rw [List.length_take] at this
        simp only [List.length_cons] at this
        omega
      · exact ih _ c h

theorem batchGo_dropLast (B : Nat) (hB : 0 < B) :
    ∀ (fuel : Nat) (ids : List String), ∀ c ∈ (batchGo B fuel ids).dropLast,
      c.length = B := by
  intro fuel
  induction fuel with
  | zero => intro ids c hc; simp [batchGo] at hc
  | succ fuel ih =>
    intro ids c hc
    cases ids with
    | nil => simp [batchGo] at hc
    | cons x xs =>
      have hstep : batchGo B (fuel + 1) (x :: xs)
          = (x :: xs).take B :: batchGo B fuel ((x :: xs).drop B) := rfl
      rw [hstep] at hc
      cases hrest : batchGo B fuel ((x :: xs).drop B) with
      | nil => rw [hrest] at hc; simp at hc
      | cons r rs =>
        rw [hrest, List.dropLast_cons₂] at hc
        rcases List.mem_cons.mp hc with h | h
        · subst h
          have hdrop : ((x :: xs).drop B) ≠ [] := by
            intro hdnil
            rw [hdnil] at hrest
            cases fuel <;> simp [batchGo] at hrest
          have hlenB : B ≤ (x :: xs).length := by
            by_contra hlt
            push_neg at hlt
            exact hdrop (List.drop_eq_nil_of_le (by omega))
          rw [List.length_take]
          omega
        · exact ih _ c (by rw [hrest]; exact h)

/-- C2: `getFigmaFileRequestBatches` partitions the candidate-identifier
sequence into `ceil(L/B)` contiguous chunks, each of size `B` except
possibly the last, none empty, whose concatenation is the original
sequence; an empty input yields zero chunks; the default batch size
is 300. -/
theorem C2_plan_partitions (comps : List (String × String)) (B : Nat) (hB : 0 < B) :
    (getFigmaFileRequestBatches comps B).flatten = comps.map Prod.fst ∧
    (getFigmaFileRequestBatches comps B).length = (comps.length + B - 1) / B ∧
    (∀ c ∈ getFigmaFileRequestBatches comps B, c ≠ [] ∧ c.length ≤ B) ∧
    (∀ c ∈ (getFigmaFileRequestBatches comps B).dropLast, c.length = B) ∧
    (comps = [] → getFigmaFileRequestBatches comps B = []) ∧
    getFigmaFileRequestBatches comps = getFigmaFileRequestBatches comps 300 := by
  refine ⟨?_, ?_, ?_, ?_, ?_, rfl⟩
  · exact batchGo_flatten B hB _ _ (Nat.le_refl _)
  · rw [show getFigmaFileRequestBatches comps B
        = batchGo B (comps.map Prod.fst).length (comps.map Prod.fst) from rfl,
      batchGo_length B hB _ _ (Nat.le_refl _), List.length_map]
  · exact fun c hc => batchGo_mem B hB _ _ c hc
  · exact fun c hc => batchGo_dropLast B hB _ _ c hc
  · intro h; subst h; rfl

/-- C2 witness: a concrete instantiation with batch size 2. -/
theorem C2_plan_partitions_witness :
    0 < 2 ∧ (getFigmaFileRequestBatches compsDup 2).flatten = compsDup.map Prod.fst :=
  ⟨by decide, (C2_plan_partitions compsDup 2 (by decide)).1⟩

/-! ### Config validator (C4, C5, C8) -/

theorem validate_ok_eq (config r : Config)
    (hok : validateAndCleanConfig config = .ok r) :
    r = { config with nodeIds := config.nodeIds.map cleanNodeIds } := by
  obtain ⟨o, cl, a, f, n, fs, pj, svc, svp, sc, ot, ii, inn, ss, co, ub⟩ := config
  cases n with
  | none =>
    simp only [validateAndCleanConfig] at hok
    split_ifs at hok <;> simp_all
  | some ids =>
    simp only [validateAndCleanConfig] at hok
    split_ifs at hok <;> simp_all

/-- C4: `validateAndCleanConfig` first normalizes the node-identifier list
(trim, dash-to-colon, drop empties — a list of only invalid entries
collapses to an empty list rather than an error), then fails naming the
first missing/invalid field in the order output directory, access token,
file identifier, scale range; the stated normalization example holds. -/
theorem C4_validate_order :
    cleanNodeIds ["5432-1234", " 1234:9876 "] = ["5432:1234", "1234:9876"] ∧
    ∀ config : Config,
      (config.outputDirectory = "" →
        validateAndCleanConfig config =
          .error "Missing required parameter: output path (-o /path/to/output)") ∧
      (config.outputDirectory ≠ "" → config.accessToken = "" →
        validateAndCleanConfig config =
          .error "Missing required parameter: Figma personal access token (-a figd_sadasdjl...)") ∧
      (config.outputDirectory ≠ "" → config.accessToken ≠ "" → config.fileId = "" →
        validateAndCleanConfig config =
          .error "Missing required parameter: Figma file ID (-f oQ5VCtq1r0KrPx3VpqMSX5)") ∧
      (config.outputDirectory ≠ "" → config.accessToken ≠ "" → config.fileId ≠ "" →
        scaleTruthy config.scale = true →
        (config.scale.getD 0 < mkRat 1 100 ∨ 4 < config.scale.getD 0) →
        validateAndCleanConfig config =
          .error "Invalid Figma image scale value, must be between 0.01 and 4") ∧
      (config.outputDirectory ≠ "" → config.accessToken ≠ "" → config.fileId ≠ "" →
        (scaleTruthy config.scale = true →
          mkRat 1 100 ≤ config.scale.getD 0 ∧ config.scale.getD 0 ≤ 4) →
        validateAndCleanConfig config =
          .ok { config with nodeIds := config.nodeIds.map cleanNodeIds }) := by
  constructor
  · rfl
  intro config
  obtain ⟨o, cl, a, f, n, fs, pj, svc, svp, sc, ot, ii, inn, ss, co, ub⟩ := config
  refine ⟨?_, ?_, ?_, ?_, ?_⟩
  · intro h1
    replace h1 : o = "" := h1
    cases n <;> simp [validateAndCleanConfig, h1]
  · intro h1 h2
    replace h1 : o ≠ "" := h1
    replace h2 : a = "" := h2
    cases n <;> simp [validateAndCleanConfig, h1, h2]
  · intro h1 h2 h3
    replace h1 : o ≠ "" := h1
    replace h2 : a ≠ "" := h2
    replace h3 : f = "" := h3
    cases n <;> simp [validateAndCleanConfig, h1, h2, h3]
  · intro h1 h2 h3 h4 h5
    replace h1 : o ≠ "" := h1
    replace h2 : a ≠ "" := h2
    replace h3 : f ≠ "" := h3
    replace h4 : scaleTruthy sc = true := h4
    replace h5 : sc.getD 0 < mkRat 1 100 ∨ 4 < sc.getD 0 := h5
    cases n <;> simp [validateAndCleanConfig, h1, h2, h3, h4, h5]
  · intro h1 h2 h3 h4
    replace h1 : o ≠ "" := h1
    replace h2 : a ≠ "" := h2
    replace h3 : f ≠ "" := h3
    replace h4 : scaleTruthy sc = true → mkRat 1 100 ≤ sc.getD 0 ∧ sc.getD 0 ≤ 4 := h4
    have hcond : ¬ (scaleTruthy sc = true ∧ (sc.getD 0 < mkRat 1 100 ∨ 4 < sc.getD 0)) := by
      rintro ⟨ht, hor⟩
      rcases h4 ht with ⟨hl, hr⟩
      rcases hor with h | h
      · exact absurd h (not_lt.mpr hl)
      · exact absurd h (not_lt.mpr hr)
    cases n <;> simp [validateAndCleanConfig, h1, h2, h3, hcond]

/-- C4 witness: an empty access token fails naming the access token. -/
theorem C4_validate_order_witness :
    cfgNoToken.outputDirectory ≠ "" ∧
    validateAndCleanConfig cfgNoToken =
      .error "Missing required parameter: Figma personal access token (-a figd_sadasdjl...)" :=
  ⟨by decide, (C4_validate_order.2 cfgNoToken).2.1 (by decide) (by decide)⟩

/-- C5 counterexample: a config with `scale = 0` passes validation with the
scale present and outside `[0.01, 4]`, because `config.scale &&` skips the
range check for the falsy value `0`. -/
theorem C5_scale_zero_counterexample :
    validateAndCleanConfig cfgScaleZero = .ok cfgScaleZero ∧
    cfgScaleZero.scale = some 0 ∧
    ¬ ((mkRat 1 100 : ℚ) ≤ 0) ∧ (mkRat 1 100 : ℚ) = 1 / 100 :=
  ⟨by decide, rfl, by decide, by rw [Rat.mkRat_eq_div]; norm_num⟩

/-- C5 (amended): after successful validation, a present *nonzero* scale
lies in the closed interval `[0.01, 4]` (and `mkRat 1 100` is `1/100`,
i.e. `0.01`). -/
theorem C5_scale_in_range (config r : Config) (s : ℚ)
    (hok : validateAndCleanConfig config = .ok r) (hs : r.scale = some s)
    (hnz : s ≠ 0) :
    mkRat 1 100 ≤ s ∧ s ≤ 4 ∧ (mkRat 1 100 : ℚ) = 1 / 100 := by
  have hr := validate_ok_eq config r hok
  have hsc : config.scale = some s := by rw [hr] at hs; exact hs
  obtain ⟨o, cl, a, f, n, fs, pj, svc, svp, sc, ot, ii, inn, ss, co, ub⟩ := config
  simp only at hsc
  subst hsc
  have htr : scaleTruthy (some s) = true := by
    simp [scaleTruthy, hnz]
  refine ⟨?_, ?_, by rw [Rat.mkRat_eq_div]; norm_num⟩ <;>
  · by_contra hlt
    push_neg at hlt
    cases n with
    | none =>
      simp only [validateAndCleanConfig] at hok
      split_ifs at hok with hc1 hc2 hc3 hc4 <;> simp_all
    | some ids =>
      simp only [validateAndCleanConfig] at hok
      split_ifs at hok with hc1 hc2 hc3 hc4 <;> simp_all

/-- C5 witness: scale 2 validates and lies in range. -/
theorem C5_scale_in_range_witness :
    mkRat 1 100 ≤ (2 : ℚ) ∧ (2 : ℚ) ≤ 4 ∧ (mkRat 1 100 : ℚ) = 1 / 100 :=
  C5_scale_in_range cfgScaleTwo cfgScaleTwo 2 (by decide) (by decide) (by decide)

/-- C8: a successful `validateAndCleanConfig` returns the input config
with every field unchanged except `nodeIds`, which is rewritten by
`cleanNodeIds`. -/
theorem C8_validate_frame (config r : Config)
    (hok : validateAndCleanConfig config = .ok r) :
    r.outputDirectory = config.outputDirectory ∧
    r.clearOutputDirectory = config.clearOutputDirectory ∧
    r.accessToken = config.accessToken ∧
    r.fileId = config.fileId ∧
    r.fileNameStrategy = config.fileNameStrategy ∧
    r.projectId = config.projectId ∧
    r.svgoConfig = config.svgoConfig ∧
    r.svgoConfigPath = config.svgoConfigPath ∧
    r.scale = config.scale ∧
    r.outlineText = config.outlineText ∧
    r.includeId = config.includeId ∧
    r.includeNodeId = config.includeNodeId ∧
    r.simplifyStroke = config.simplifyStroke ∧
    r.contentsOnly = config.contentsOnly ∧
    r.useAbsoluteBounds = config.useAbsoluteBounds ∧
    r.nodeIds = config.nodeIds.map cleanNodeIds := by
  have hr := validate_ok_eq config r hok
  subst hr
  exact ⟨rfl, rfl, rfl, rfl, rfl, rfl, rfl, rfl, rfl, rfl, rfl, rfl, rfl, rfl, rfl, rfl⟩

/-- C8 witness: concrete node-id normalization keeps all other fields. -/
theorem C8_validate_frame_witness :
    cfgWithIdsCleaned.outputDirectory = cfgWithIds.outputDirectory :=
  (C8_validate_frame cfgWithIds cfgWithIdsCleaned (by decide)).1

/-! ### Download orchestrator (C6) and single download (C9) -/

theorem promiseAll_of_forall_ok {α β : Type} (f : β → Except String α) (g : β → α)
    (l : List β) (h : ∀ b ∈ l, f b = .ok (g b)) :
    promiseAll (l.map f) = .ok (l.map g) := by
  induction l with
  | nil => rfl
  | cons b rest ih =>
    have hb := h b (List.mem_cons_self b rest)
    have hrest := ih (fun x hx => h x (List.mem_cons_of_mem b hx))
    simp only [List.map_cons]
    rw [hb]
    show (match promiseAll (rest.map f) with
      | Except.error e => Except.error e
      | Except.ok l2 => Except.ok (g b :: l2)) = _
    rw [hrest]

theorem promiseAll_error_of_mem {α β : Type} (f : β → Except String α)
    (l : List β) (b : β) (hb : b ∈ l) (m : String) (herr : f b = .error m) :
    ∃ e, promiseAll (l.map f) = .error e := by
  induction l with
  | nil => cases hb
  | cons x rest ih =>
    simp only [List.map_cons]
    cases hfx : f x with
    | error e => exact ⟨e, rfl⟩
    | ok v =>
      rcases List.mem_cons.mp hb with h | h
      · subst h; rw [hfx] at herr; cases herr
      · rcases ih h with ⟨e, he⟩
        refine ⟨e, ?_⟩
        show (match promiseAll (rest.map f) with
          | Except.error e => Except.error e
          | Except.ok l2 => Except.ok (v :: l2)) = _
        rw [he]

/-- C6: when every download succeeds, `downloadAndSaveSVGs` returns the
ordered list of written paths `outputDir / strategy(name) + ".svg"`, one
per map entry in map order (so its length is the map's size); if any
download fails, the aggregate fails; and every download is launched
independently of the others (the write-promise list is a map over all
entries). -/
theorem C6_downloadAndSaveSVGs_run (caseStrategy : String → String)
    (download : String → String → Except String String)
    (svgDownloadPaths : List (String × String)) (outputDir : String)
    (hret : ∀ u f r, download u f = .ok r → r = f) :
    ((∀ p ∈ svgDownloadPaths,
        ∃ v, download p.2 (pathJoin outputDir (caseStrategy p.1 ++ ".svg")) = .ok v) →
      downloadAndSaveSVGs caseStrategy download svgDownloadPaths outputDir =
        .ok (svgDownloadPaths.map (fun p => pathJoin outputDir (caseStrategy p.1 ++ ".svg"))) ∧
      ∃ l, downloadAndSaveSVGs caseStrategy download svgDownloadPaths outputDir = .ok l ∧
        l.length = svgDownloadPaths.length) ∧
    ((∃ p ∈ svgDownloadPaths,
        ∃ m, download p.2 (pathJoin outputDir (caseStrategy p.1 ++ ".svg")) = .error m) →
      ∃ m, downloadAndSaveSVGs caseStrategy download svgDownloadPaths outputDir = .error m) ∧
    svgWritePromises caseStrategy download svgDownloadPaths outputDir =
      svgDownloadPaths.map (fun p => download p.2 (pathJoin outputDir (caseStrategy p.1 ++ ".svg"))) := by
  refine ⟨?_, ?_, rfl⟩
  · intro hall
    have hok : downloadAndSaveSVGs caseStrategy download svgDownloadPaths outputDir =
        .ok (svgDownloadPaths.map (fun p => pathJoin outputDir (caseStrategy p.1 ++ ".svg"))) := by
      unfold downloadAndSaveSVGs svgWritePromises
      refine promiseAll_of_forall_ok
        (fun p : String × String => download p.2 (pathJoin outputDir (caseStrategy p.1 ++ ".svg")))
        (fun p : String × String => pathJoin outputDir (caseStrategy p.1 ++ ".svg"))
        svgDownloadPaths ?_
      intro p hp
      rcases hall p hp with ⟨v, hv⟩
      have hvf := hret _ _ _ hv
      show download p.2 (pathJoin outputDir (caseStrategy p.1 ++ ".svg")) =
        Except.ok (pathJoin outputDir (caseStrategy p.1 ++ ".svg"))
      rw [hv, hvf]
    exact ⟨hok, _, hok, by rw [List.length_map]⟩
  · rintro ⟨p, hp, m, hm⟩
    exact promiseAll_error_of_mem _ svgDownloadPaths p hp m hm

/-- C6 witness: one entry, successful download. -/
theorem C6_downloadAndSaveSVGs_run_witness :
    downloadAndSaveSVGs (fun s => s) downloadOkFn exDownloadPaths "/out" =
      .ok (exDownloadPaths.map (fun p => pathJoin "/out" (p.1 ++ ".svg"))) :=
  ((C6_downloadAndSaveSVGs_run (fun s => s) downloadOkFn exDownloadPaths "/out"
    (fun _ _ _ h => by cases h; rfl)).1
    (fun p _ => ⟨pathJoin "/out" (p.1 ++ ".svg"), rfl⟩)).1

/-- C9: if the fetch fails or delivers a non-success response,
`downloadSVG` returns an error and performs no write; conversely a write
attempt implies a delivered success response. -/
theorem C9_downloadSVG_no_write_before_success
    (url filePath : String) (fetchRes : Except String HttpResponse)
    (write : String → String → Except String Unit) :
    (((∃ e, fetchRes = .error e) ∨ (∃ resp, fetchRes = .ok resp ∧ resp.ok = false)) →
      (∃ m, (downloadSVG url filePath fetchRes write).1 = .error m) ∧
      (downloadSVG url filePath fetchRes write).2 = []) ∧
    ((downloadSVG url filePath fetchRes write).2 ≠ [] →
      ∃ resp, fetchRes = .ok resp ∧ resp.ok = true) := by
  cases fetchRes with
  | error e =>
    constructor
    · intro _
      exact ⟨⟨_, rfl⟩, rfl⟩
    · intro h
      exact absurd rfl h
  | ok resp =>
    cases hro : resp.ok with
    | false =>
      constructor
      · intro _
        constructor
        · exact ⟨"Failed to download SVG from " ++ url ++ ": " ++
            resp.statusText ++ " - " ++ resp.body, by simp [downloadSVG, hro]⟩
        · simp [downloadSVG, hro]
      · intro h
        simp [downloadSVG, hro] at h
    | true =>
      constructor
      · rintro (⟨e, he⟩ | ⟨resp2, hr2, hro2⟩)
        · cases he
        · have : resp2 = resp := by cases hr2; rfl
          subst this
          rw [hro] at hro2
          cases hro2
      · intro _
        exact ⟨resp, rfl, hro⟩

/-- C9 witness: a 500 response yields an error and an empty write log. -/
theorem C9_downloadSVG_no_write_before_success_witness :
    (∃ m, (downloadSVG "https://cdn/a" "/out/a.svg" (.ok respFail) writeOkFn).1 = .error m) ∧
    (downloadSVG "https://cdn/a" "/out/a.svg" (.ok respFail) writeOkFn).2 = [] :=
  (C9_downloadSVG_no_write_before_success "https://cdn/a" "/out/a.svg" (.ok respFail)
    writeOkFn).1 (Or.inr ⟨respFail, rfl, rfl⟩)

/-! ### CLI exit codes (C7) -/

/-- C7: the CLI exit code is always 0 or 1; it is 0 exactly when
validation succeeds and either the scan finds nothing to export or every
pipeline stage succeeds, and 1 on any validation or pipeline failure. -/
theorem C7_cli_exit_codes (rawConfig : Config)
    (getFile : Config → Except String (List (String × String)))
    (getPaths : Config → List (String × String) → Except String (List (String × String)))
    (prepareOutputDir : Config → Except String Unit)
    (downloadAll : Config → List (String × String) → Except String (List String))
    (optimizeAll : Config → List String → Except String Unit) :
    (cli rawConfig getFile getPaths prepareOutputDir downloadAll optimizeAll = 0 ∨
     cli rawConfig getFile getPaths prepareOutputDir downloadAll optimizeAll = 1) ∧
    (cli rawConfig getFile getPaths prepareOutputDir downloadAll optimizeAll = 0 ↔
      ∃ config, validateAndCleanConfig rawConfig = .ok config ∧
        ∃ comps, getFile config = .ok comps ∧
          (comps = [] ∨
            ∃ dps, getPaths config comps = .ok dps ∧
              prepareOutputDir config = .ok () ∧
              ∃ ws, downloadAll config dps = .ok ws ∧
                ((config.svgoConfig.isSome || optStrTruthy config.svgoConfigPath) = true →
                  optimizeAll config ws = .ok ()))) := by
  cases hv : validateAndCleanConfig rawConfig with
  | error e =>
    have hcli : cli rawConfig getFile getPaths prepareOutputDir downloadAll optimizeAll = 1 := by
      unfold cli; rw [hv]
    refine ⟨Or.inr hcli, ?_, ?_⟩
    · intro h; rw [hcli] at h; cases h
    · rintro ⟨config, hc, -⟩; cases hc
  | ok config =>
    have hcli : cli rawConfig getFile getPaths prepareOutputDir downloadAll optimizeAll =
        cliGetFileStage config getFile getPaths prepareOutputDir downloadAll optimizeAll := by
      unfold cli; rw [hv]
    cases hg : getFile config with
    | error e =>
      have hstage : cliGetFileStage config getFile getPaths prepareOutputDir downloadAll
          optimizeAll = 1 := by
        unfold cliGetFileStage; rw [hg]
      rw [hcli, hstage]
      refine ⟨Or.inr rfl, ?_, ?_⟩
      · intro h; cases h
      · rintro ⟨config2, hc, comps2, hcm, -⟩
        cases hc
        rw [hg] at hcm; cases hcm
    | ok comps =>
      have hstage : cliGetFileStage config getFile getPaths prepareOutputDir downloadAll
          optimizeAll =
          cliScanStage config getPaths prepareOutputDir downloadAll optimizeAll comps := by
        unfold cliGetFileStage; rw [hg]
      by_cases hlen : comps.length = 0
      · have hscan : cliScanStage config getPaths prepareOutputDir downloadAll optimizeAll
            comps = 0 := by
          unfold cliScanStage; rw [if_pos hlen]
        rw [hcli, hstage, hscan]
        refine ⟨Or.inl rfl, ?_, fun _ => rfl⟩
        intro _
        exact ⟨config, rfl, comps, hg, Or.inl (List.length_eq_zero.mp hlen)⟩
      · have hcne : comps ≠ [] := fun h => hlen (by rw [h]; rfl)
        have hscan : cliScanStage config getPaths prepareOutputDir downloadAll optimizeAll
            comps =
            cliPathsStage config getPaths prepareOutputDir downloadAll optimizeAll comps := by
          unfold cliScanStage; rw [if_neg hlen]
        cases hp : getPaths config comps with
        | error e =>
          have hpaths : cliPathsStage config getPaths prepareOutputDir downloadAll optimizeAll
              comps = 1 := by
            unfold cliPathsStage; rw [hp]
          rw [hcli, hstage, hscan, hpaths]
          refine ⟨Or.inr rfl, ?_, ?_⟩
          · intro h; cases h
          · rintro ⟨config2, hc, comps2, hcm, hrest⟩
            cases hc
            rw [hg] at hcm; cases hcm
            rcases hrest with h | ⟨dps, hdp, -⟩
            · exact (hcne h).elim
            · rw [hp] at hdp; cases hdp
        | ok dps =>
          have hpaths : cliPathsStage config getPaths prepareOutputDir downloadAll optimizeAll
              comps = cliPrepareStage config prepareOutputDir downloadAll optimizeAll dps := by
            unfold cliPathsStage; rw [hp]
          cases hpd : prepareOutputDir config with
          | error e =>
            have hprep : cliPrepareStage config prepareOutputDir downloadAll optimizeAll
                dps = 1 := by
              unfold cliPrepareStage; rw [hpd]
            rw [hcli, hstage, hscan, hpaths, hprep]
            refine ⟨Or.inr rfl, ?_, ?_⟩
            · intro h; cases h
            · rintro ⟨config2, hc, comps2, hcm, hrest⟩
              cases hc
              rw [hg] at hcm; cases hcm
              rcases hrest with h | ⟨dps2, hdp, hpd2, -⟩
              · exact (hcne h).elim
              · rw [hpd] at hpd2; cases hpd2
          | ok u =>
            cases u
            have hprep : cliPrepareStage config prepareOutputDir downloadAll optimizeAll dps =
                cliDownloadStage config downloadAll optimizeAll dps := by
              unfold cliPrepareStage; rw [hpd]
            cases hdl : downloadAll config dps with
            | error e =>
              have hdls : cliDownloadStage config downloadAll optimizeAll dps = 1 := by
                unfold cliDownloadStage; rw [hdl]
              rw [hcli, hstage, hscan, hpaths, hprep, hdls]
              refine ⟨Or.inr rfl, ?_, ?_⟩
              · intro h; cases h
              · rintro ⟨config2, hc, comps2, hcm, hrest⟩
                cases hc
                rw [hg] at hcm; cases hcm
                rcases hrest with h | ⟨dps2, hdp, hpd2, ws, hws, -⟩
                · exact (hcne h).elim
                · rw [hp] at hdp; cases hdp
                  rw [hdl] at hws; cases hws
            | ok ws =>
              have hdls : cliDownloadStage config downloadAll optimizeAll dps =
                  cliOptimizeStage config optimizeAll ws := by
                unfold cliDownloadStage; rw [hdl]
              by_cases hsv : (config.svgoConfig.isSome || optStrTruthy config.svgoConfigPath)
                  = true
              · cases hop : optimizeAll config ws with
                | error e =>
                  have hopt : cliOptimizeStage config optimizeAll ws = 1 := by
                    unfold cliOptimizeStage; rw [if_pos hsv, hop]
                  rw [hcli, hstage, hscan, hpaths, hprep, hdls, hopt]
                  refine ⟨Or.inr rfl, ?_, ?_⟩
                  · intro h; cases h
                  · rintro ⟨config2, hc, comps2, hcm, hrest⟩
                    cases hc
                    rw [hg] at hcm; cases hcm
                    rcases hrest with h | ⟨dps2, hdp, hpd2, ws2, hws, hopt2⟩
                    · exact (hcne h).elim
                    · rw [hp] at hdp; cases hdp
                      rw [hdl] at hws; cases hws
                      have hcontra := hopt2 hsv
                      rw [hop] at hcontra; cases hcontra
                | ok u2 =>
                  cases u2
                  have hopt : cliOptimizeStage config optimizeAll ws = 0 := by
                    unfold cliOptimizeStage; rw [if_pos hsv, hop]
                  rw [hcli, hstage, hscan, hpaths, hprep, hdls, hopt]
                  refine ⟨Or.inl rfl, fun _ => ?_, fun _ => rfl⟩
                  exact ⟨config, rfl, comps, hg,
                    Or.inr ⟨dps, hp, hpd, ws, hdl, fun _ => hop⟩⟩
              · have hopt : cliOptimizeStage config optimizeAll ws = 0 := by
                  unfold cliOptimizeStage; rw [if_neg hsv]
                rw [hcli, hstage, hscan, hpaths, hprep, hdls, hopt]
                refine ⟨Or.inl rfl, fun _ => ?_, fun _ => rfl⟩
                exact ⟨config, rfl, comps, hg,
                  Or.inr ⟨dps, hp, hpd, ws, hdl, fun h => absurd h hsv⟩⟩

/-! ### Tree scanner (C1) -/

theorem countOcc_append (s : String) (a b : List String) :
    countOcc s (a ++ b) = countOcc s a + countOcc s b := by
  induction a with
  | nil => simp [countOcc]
  | cons x rest ih =>
    show countOcc s (x :: (rest ++ b)) = _
    simp only [countOcc, ih]
    omega

theorem countOcc_pos_of_mem (s : String) (l : List String) (h : s ∈ l) :
    1 ≤ countOcc s l := by
  induction l with
  | nil => cases h
  | cons x rest ih =>
    rcases List.mem_cons.mp h with h2 | h2
    · subst h2
      simp [countOcc]
    · simp only [countOcc]
      have := ih h2
      omega

theorem countOcc_eq_zero_of_not_mem (s : String) (l : List String) (h : s ∉ l) :
    countOcc s l = 0 := by
  induction l with
  | nil => rfl
  | cons x rest ih =>
    have hxs : ¬ x = s := fun hx => h (hx ▸ List.mem_cons_self x rest)
    have hrest : s ∉ rest := fun hr => h (List.mem_cons_of_mem x hr)
    simp only [countOcc, if_neg hxs, ih hrest]

theorem countOcc_le_one_of_nodup (s : String) (l : List String) (h : l.Nodup) :
    countOcc s l ≤ 1 := by
  induction l with
  | nil => simp [countOcc]
  | cons x rest ih =>
    obtain ⟨hx, hrest⟩ := List.nodup_cons.mp h
    by_cases hxs : x = s
    · subst hxs
      simp [countOcc, countOcc_eq_zero_of_not_mem x rest hx]
    · simp only [countOcc, if_neg hxs]
      have := ih hrest
      omega

theorem mapSet_keys (m : List (String × String)) (k v : String) :
    (mapSet m k v).map Prod.fst =
      if m.any (fun p => p.1 == k) then m.map Prod.fst
      else m.map Prod.fst ++ [k] := by
  unfold mapSet
  split
  · rw [List.map_map]
    apply List.map_congr_left
    intro p _
    by_cases h : p.1 = k <;> simp [h]
  · simp

theorem mapSet_keys_mem (m : List (String × String)) (k v x : String)
    (hx : x ∈ (mapSet m k v).map Prod.fst) :
    x ∈ m.map Prod.fst ∨ x = k := by
  rw [mapSet_keys] at hx
  by_cases h : m.any (fun p => p.1 == k)
  · rw [if_pos h] at hx
    exact Or.inl hx
  · rw [if_neg h] at hx
    rcases List.mem_append.mp hx with h2 | h2
    · exact Or.inl h2
    · exact Or.inr (List.mem_singleton.mp h2)

theorem mapSet_keys_nodup (m : List (String × String)) (k v : String)
    (h : (m.map Prod.fst).Nodup) :
    ((mapSet m k v).map Prod.fst).Nodup := by
  rw [mapSet_keys]
  by_cases hany : m.any (fun p => p.1 == k)
  · rw [if_pos hany]; exact h
  · rw [if_neg hany]
    have hk : k ∉ m.map Prod.fst := by
      intro hmem
      rcases List.mem_map.mp hmem with ⟨p, hp, hpk⟩
      exact hany (List.any_eq_true.mpr ⟨p, hp, by simp [hpk]⟩)
    simp [List.nodup_append, h, hk]

theorem mergeMap_keys_mem (src acc : List (String × String)) (x : String)
    (hx : x ∈ (mergeMap acc src).map Prod.fst) :
    x ∈ acc.map Prod.fst ∨ x ∈ src.map Prod.fst := by
  induction src generalizing acc with
  | nil => exact Or.inl hx
  | cons p rest ih =>
    have hx2 : x ∈ (mergeMap (mapSet acc p.1 p.2) rest).map Prod.fst := hx
    rcases ih (mapSet acc p.1 p.2) hx2 with h | h
    · rcases mapSet_keys_mem acc p.1 p.2 x h with h2 | h2
      · exact Or.inl h2
      · exact Or.inr (by rw [h2]; exact List.mem_map.mpr ⟨p, List.mem_cons_self p rest, rfl⟩)
    · refine Or.inr ?_
      rw [List.map_cons]
      exact List.mem_cons_of_mem _ h

theorem isMatch_iff (n : DocumentNode) : isMatch n = true ↔ specIsMatch n := by
  cases n with
  | mk i nm ty vis es ch =>
    simp [isMatch, specIsMatch, List.any_eq_true, and_assoc]

mutual

theorem collectForest_eq_specForest :
    ∀ (ns : List DocumentNode) (acc : List (String × String)),
      collectSVGForest ns acc = scanSpecForest ns acc
  | [], _ => rfl
  | n :: rest, acc => by
    show collectSVGForest rest (collectSVGNode n acc) =
      scanSpecForest rest (scanSpecNode n acc)
    rw [collectNode_eq_specNode n acc]
    exact collectForest_eq_specForest rest (scanSpecNode n acc)

theorem collectNode_eq_specNode :
    ∀ (n : DocumentNode) (acc : List (String × String)),
      collectSVGNode n acc = scanSpecNode n acc
  | .mk i nm ty vis es none, acc => by
    show (if isMatch (.mk i nm ty vis es none) then mapSet acc i nm else acc) =
      (if specIsMatch (.mk i nm ty vis es none) then mapSet acc i nm else acc)
    by_cases h : specIsMatch (.mk i nm ty vis es none)
    · rw [if_pos ((isMatch_iff _).mpr h), if_pos h]
    · rw [if_neg (fun hb => h ((isMatch_iff _).mp hb)), if_neg h]
  | .mk i nm ty vis es (some cs), acc => by
    show (if isMatch (.mk i nm ty vis es (some cs)) then mapSet acc i nm
        else if cs.length != 0 then mergeMap acc (collectSVGForest cs []) else acc) =
      (if specIsMatch (.mk i nm ty vis es (some cs)) then mapSet acc i nm
        else mergeMap acc (scanSpecForest cs []))
    by_cases h : specIsMatch (.mk i nm ty vis es (some cs))
    · rw [if_pos ((isMatch_iff _).mpr h), if_pos h]
    · rw [if_neg (fun hb => h ((isMatch_iff _).mp hb)), if_neg h,
        collectForest_eq_specForest cs []]
      cases cs with
      | nil => rfl
      | cons c cs2 => rfl

end

mutual

theorem countIds_node (s : String) : ∀ n : DocumentNode,
    countOcc s (collectedIdsNode n) + countOcc s (matchedDescIdsNode n) ≤
      countOcc s (allIdsNode n)
  | .mk i nm ty vis es none => by
    show countOcc s (if isMatch (.mk i nm ty vis es none) then [i] else []) +
      countOcc s [] ≤ countOcc s [i]
    by_cases h : isMatch (.mk i nm ty vis es none) = true
    · rw [if_pos h]
      simp [countOcc]
    · rw [if_neg h]
      simp [countOcc]
  | .mk i nm ty vis es (some cs) => by
    show countOcc s (if isMatch (.mk i nm ty vis es (some cs)) then [i]
        else collectedIdsForest cs) +
      countOcc s (if isMatch (.mk i nm ty vis es (some cs)) then allIdsForest cs
        else matchedDescIdsForest cs) ≤
      countOcc s (i :: allIdsForest cs)
    by_cases h : isMatch (.mk i nm ty vis es (some cs)) = true
    · rw [if_pos h, if_pos h]
      simp only [countOcc]
      omega
    · rw [if_neg h, if_neg h]
      have hrec := countIds_forest s cs
      simp only [countOcc]
      omega

theorem countIds_forest (s : String) : ∀ ns : List DocumentNode,
    countOcc s (collectedIdsForest ns) + countOcc s (matchedDescIdsForest ns) ≤
      countOcc s (allIdsForest ns)
  | [] => by simp [countOcc]
  | n :: rest => by
    show countOcc s (collectedIdsNode n ++ collectedIdsForest rest) +
      countOcc s (matchedDescIdsNode n ++ matchedDescIdsForest rest) ≤
      countOcc s (allIdsNode n ++ allIdsForest rest)
    rw [countOcc_append, countOcc_append, countOcc_append]
    have h1 := countIds_node s n
    have h2 := countIds_forest s rest
    omega

end

mutual

theorem collectNode_keys_subset :
    ∀ (n : DocumentNode) (acc : List (String × String)) (x : String),
      x ∈ (collectSVGNode n acc).map Prod.fst →
        x ∈ acc.map Prod.fst ∨ x ∈ collectedIdsNode n
  | .mk i nm ty vis es none, acc, x => by
    intro hx
    replace hx : x ∈ ((if isMatch (.mk i nm ty vis es none) then mapSet acc i nm
      else acc).map Prod.fst) := hx
    by_cases h : isMatch (.mk i nm ty vis es none) = true
    · rw [if_pos h] at hx
      rcases mapSet_keys_mem acc i nm x hx with h2 | h2
      · exact Or.inl h2
      · refine Or.inr ?_
        show x ∈ (if isMatch (.mk i nm ty vis es none) then [i] else [])
        rw [if_pos h, h2]
        exact List.mem_singleton.mpr rfl
    · rw [if_neg h] at hx
      exact Or.inl hx
  | .mk i nm ty vis es (some cs), acc, x => by
    intro hx
    replace hx : x ∈ ((if isMatch (.mk i nm ty vis es (some cs)) then mapSet acc i nm
      else if cs.length != 0 then mergeMap acc (collectSVGForest cs [])
      else acc).map Prod.fst) := hx
    by_cases h : isMatch (.mk i nm ty vis es (some cs)) = true
    · rw [if_pos h] at hx
      rcases mapSet_keys_mem acc i nm x hx with h2 | h2
      · exact Or.inl h2
      · refine Or.inr ?_
        show x ∈ (if isMatch (.mk i nm ty vis es (some cs)) then [i]
          else collectedIdsForest cs)
        rw [if_pos h, h2]
        exact List.mem_singleton.mpr rfl
    · rw [if_neg h] at hx
      by_cases hcs : (cs.length != 0) = true
      · rw [if_pos hcs] at hx
        rcases mergeMap_keys_mem (collectSVGForest cs []) acc x hx with h2 | h2
        · exact Or.inl h2
        · rcases collectForest_keys_subset cs [] x h2 with h3 | h3
          · cases h3
          · refine Or.inr ?_
            show x ∈ (if isMatch (.mk i nm ty vis es (some cs)) then [i]
              else collectedIdsForest cs)
            rw [if_neg h]
            exact h3
      · rw [if_neg hcs] at hx
        exact Or.inl hx

theorem collectForest_keys_subset :
    ∀ (ns : List DocumentNode) (acc : List (String × String)) (x : String),
      x ∈ (collectSVGForest ns acc).map Prod.fst →
        x ∈ acc.map Prod.fst ∨ x ∈ collectedIdsForest ns
  | [], _, _ => fun hx => Or.inl hx
  | n :: rest, acc, x => by
    intro hx
    replace hx : x ∈ (collectSVGForest rest (collectSVGNode n acc)).map Prod.fst := hx
    rcases collectForest_keys_subset rest (collectSVGNode n acc) x hx with h | h
    · rcases collectNode_keys_subset n acc x h with h2 | h2
      · exact Or.inl h2
      · refine Or.inr ?_
        show x ∈ collectedIdsNode n ++ collectedIdsForest rest
        exact List.mem_append.mpr (Or.inl h2)
    · refine Or.inr ?_
      show x ∈ collectedIdsNode n ++ collectedIdsForest rest
      exact List.mem_append.mpr (Or.inr h)

end

/-- C1: `collectSVGComponents` returns an empty map on empty or undefined
input; its match test agrees with the spec's match condition; the whole
scan agrees with the spec-modelled depth-first traversal (match condition,
no descent into matched subtrees, last-write-wins merge); and, in a tree
with unique identifiers, no identifier of a descendant of a matched node
appears in the result. -/
theorem C1_collectSVGComponents_scan :
    collectSVGComponents none = [] ∧
    collectSVGComponents (some []) = [] ∧
    (∀ n, isMatch n = true ↔ specIsMatch n) ∧
    (∀ nodes, collectSVGComponents nodes = scanSpec nodes) ∧
    (∀ ns, (allIdsForest ns).Nodup →
      ∀ s ∈ matchedDescIdsForest ns,
        s ∉ (collectSVGComponents (some ns)).map Prod.fst) := by
  refine ⟨rfl, rfl, isMatch_iff, ?_, ?_⟩
  · intro nodes
    cases nodes with
    | none => rfl
    | some ns =>
      cases ns with
      | nil => rfl
      | cons n rest =>
        show collectSVGForest (n :: rest) [] = scanSpecForest (n :: rest) []
        exact collectForest_eq_specForest _ _
  · intro ns hnodup s hmem hkey
    cases ns with
    | nil => cases hmem
    | cons n rest =>
      have hkey2 : s ∈ (collectSVGForest (n :: rest) []).map Prod.fst := hkey
      have hcoll : s ∈ collectedIdsForest (n :: rest) := by
        rcases collectForest_keys_subset (n :: rest) [] s hkey2 with h | h
        · cases h
        · exact h
      have h1 := countOcc_pos_of_mem s _ hcoll
      have h2 := countOcc_pos_of_mem s _ hmem
      have h3 := countIds_forest s (n :: rest)
      have h4 := countOcc_le_one_of_nodup s _ hnodup
      omega

/-- C1 witness: in a concrete tree the child of the matched component is a
matched-descendant identifier and does not appear in the scan result. -/
theorem C1_collectSVGComponents_scan_witness :
    (allIdsForest exForest).Nodup ∧ "1:9" ∈ matchedDescIdsForest exForest ∧
    "1:9" ∉ (collectSVGComponents (some exForest)).map Prod.fst :=
  ⟨by decide, by decide,
    C1_collectSVGComponents_scan.2.2.2.2 exForest (by decide) "1:9" (by decide)⟩

/-! ### Render requester (C3, C10) -/

theorem batchImagesAll_cons (api : Config → List String → Except String GetImagesResult)
    (config : Config) (b : List String) (rest : List (List String)) :
    batchImagesAll api config (b :: rest) =
      match getFigmaFileBatchImages api config b, batchImagesAll api config rest with
      | Except.error e, _ => Except.error e
      | Except.ok _, Except.error e => Except.error e
      | Except.ok imgs, Except.ok others => Except.ok (imgs :: others) := rfl

theorem getFigmaFileBatchImages_ok_elim
    (api : Config → List String → Except String GetImagesResult) (config : Config)
    (b : List String) (imgs : List (String × Option String))
    (h : getFigmaFileBatchImages api config b = .ok imgs) :
    ∃ res, api config b = .ok res ∧ optStrTruthy res.err = false ∧ imgs = res.images := by
  unfold getFigmaFileBatchImages at h
  cases ha : api config b with
  | error e => rw [ha] at h; cases h
  | ok res =>
    rw [ha] at h
    replace h : (if optStrTruthy res.err = true then
        Except.error ("Figma getImages error: " ++ res.err.getD "")
      else Except.ok res.images) = Except.ok imgs := h
    by_cases he : optStrTruthy res.err = true
    · rw [if_pos he] at h; cases h
    · rw [if_neg he] at h
      cases h
      exact ⟨res, rfl, by simpa using he, rfl⟩

theorem getFigmaFileBatchImages_ok_intro
    (api : Config → List String → Except String GetImagesResult) (config : Config)
    (b : List String) (res : GetImagesResult)
    (ha : api config b = .ok res) (he : optStrTruthy res.err = false) :
    getFigmaFileBatchImages api config b = .ok res.images := by
  unfold getFigmaFileBatchImages
  rw [ha]
  show (if optStrTruthy res.err = true then
      Except.error ("Figma getImages error: " ++ res.err.getD "")
    else Except.ok res.images) = Except.ok res.images
  rw [if_neg (by simp [he])]

theorem batchImagesAll_ok_elim (api : Config → List String → Except String GetImagesResult)
    (config : Config) :
    ∀ (bs : List (List String)) (rs : List (List (String × Option String))),
      batchImagesAll api config bs = .ok rs →
      (∀ b ∈ bs, ∃ res, api config b = .ok res ∧ optStrTruthy res.err = false ∧
        res.images ∈ rs) ∧
      (∀ r ∈ rs, ∃ b ∈ bs, ∃ res, api config b = .ok res ∧ optStrTruthy res.err = false ∧
        r = res.images) := by
  intro bs
  induction bs with
  | nil =>
    intro rs h
    replace h : Except.ok ([] : List (List (String × Option String))) = Except.ok rs := h
    cases h
    exact ⟨fun b hb => absurd hb (List.not_mem_nil b),
      fun r hr => absurd hr (List.not_mem_nil r)⟩
  | cons b rest ih =>
    intro rs h
    rw [batchImagesAll_cons] at h
    cases hb : getFigmaFileBatchImages api config b with
    | error e => rw [hb] at h; cases h
    | ok imgs =>
      rw [hb] at h
      cases hrest : batchImagesAll api config rest with
      | error e => rw [hrest] at h; cases h
      | ok others =>
        rw [hrest] at h
        cases h
        obtain ⟨res, hres, herr, himgs⟩ := getFigmaFileBatchImages_ok_elim api config b imgs hb
        obtain ⟨ih1, ih2⟩ := ih others hrest
        constructor
        · intro b2 hb2
          rcases List.mem_cons.mp hb2 with h3 | h3
          · subst h3
            exact ⟨res, hres, herr, by rw [← himgs]; exact List.mem_cons_self _ _⟩
          · obtain ⟨res2, hres2, herr2, hmem2⟩ := ih1 b2 h3
            exact ⟨res2, hres2, herr2, List.mem_cons_of_mem _ hmem2⟩
        · intro r hr
          rcases List.mem_cons.mp hr with h3 | h3
          · subst h3
            exact ⟨b, List.mem_cons_self _ _, res, hres, herr, himgs⟩
          · obtain ⟨b2, hb2, res2, hres2, herr2, hr2⟩ := ih2 r h3
            exact ⟨b2, List.mem_cons_of_mem _ hb2, res2, hres2, herr2, hr2⟩

theorem batchImagesAll_ok_intro (api : Config → List String → Except String GetImagesResult)
    (config : Config) :
    ∀ bs : List (List String),
      (∀ b ∈ bs, ∃ res, api config b = .ok res ∧ optStrTruthy res.err = false) →
      ∃ rs, batchImagesAll api config bs = .ok rs := by
  intro bs
  induction bs with
  | nil => exact fun _ => ⟨[], rfl⟩
  | cons b rest ih =>
    intro hall
    obtain ⟨res, hres, herr⟩ := hall b (List.mem_cons_self b rest)
    obtain ⟨rs, hrs⟩ := ih (fun b2 hb2 => hall b2 (List.mem_cons_of_mem b hb2))
    refine ⟨res.images :: rs, ?_⟩
    rw [batchImagesAll_cons, getFigmaFileBatchImages_ok_intro api config b res hres herr, hrs]

theorem mergeEntries_ok_iff (comps : List (String × String)) :
    ∀ (entries : List (String × Option String)) (acc : List (String × String)),
      (∃ m, mergeEntries comps acc entries = .ok m) ↔
        ∀ e ∈ entries, optStrTruthy (mapGet comps e.1) = true ∧ optStrTruthy e.2 = true := by
  intro entries
  induction entries with
  | nil =>
    intro acc
    constructor
    · intro _ e he
      cases he
    · intro _
      exact ⟨acc, rfl⟩
  | cons e rest ih =>
    intro acc
    obtain ⟨nodeId, url⟩ := e
    unfold mergeEntries
    by_cases h1 : optStrTruthy (mapGet comps nodeId) = false
    · rw [if_pos h1]
      constructor
      · rintro ⟨m, hm⟩; cases hm
      · intro hall
        have h := (hall (nodeId, url) (List.mem_cons_self _ _)).1
        rw [h] at h1; cases h1
    · rw [if_neg h1]
      by_cases h2 : optStrTruthy url = false
      · rw [if_pos h2]
        constructor
        · rintro ⟨m, hm⟩; cases hm
        · intro hall
          have h := (hall (nodeId, url) (List.mem_cons_self _ _)).2
          rw [h] at h2; cases h2
      · rw [if_neg h2]
        rw [ih (mapSet acc ((mapGet comps nodeId).getD "") (url.getD ""))]
        constructor
        · intro hrest e2 he2
          rcases List.mem_cons.mp he2 with h3 | h3
          · subst h3
            exact ⟨by simpa using h1, by simpa using h2⟩
          · exact hrest e2 h3
        · intro hall e2 he2
          exact hall e2 (List.mem_cons_of_mem _ he2)

theorem mergeResults_ok_iff (comps : List (String × String)) :
    ∀ (rs : List (List (String × Option String))) (acc : List (String × String)),
      (∃ m, mergeResults comps acc rs = .ok m) ↔
        ∀ r ∈ rs, ∀ e ∈ r, optStrTruthy (mapGet comps e.1) = true ∧
          optStrTruthy e.2 = true := by
  intro rs
  induction rs with
  | nil =>
    intro acc
    constructor
    · intro _ r hr
      cases hr
    · intro _
      exact ⟨acc, rfl⟩
  | cons r rest ih =>
    intro acc
    cases hme : mergeEntries comps acc r with
    | error e =>
      have hnone : ∀ m, mergeResults comps acc (r :: rest) ≠ .ok m := by
        intro m h
        replace h : (match mergeEntries comps acc r with
          | Except.error e => Except.error e
          | Except.ok acc2 => mergeResults comps acc2 rest) = Except.ok m := h
        rw [hme] at h
        cases h
      constructor
      · rintro ⟨m, hm⟩
        exact absurd hm (hnone m)
      · intro hall
        have hex : ∃ m2, mergeEntries comps acc r = .ok m2 :=
          (mergeEntries_ok_iff comps r acc).mpr
            (fun e2 he2 => hall r (List.mem_cons_self _ _) e2 he2)
        rcases hex with ⟨m2, hm2⟩
        rw [hme] at hm2
        cases hm2
    | ok acc2 =>
      have hiff : ∀ m, (mergeResults comps acc (r :: rest) = .ok m) ↔
          (mergeResults comps acc2 rest = .ok m) := by
        intro m
        constructor
        · intro h
          replace h : (match mergeEntries comps acc r with
            | Except.error e => Except.error e
            | Except.ok acc3 => mergeResults comps acc3 rest) = Except.ok m := h
          rw [hme] at h
          exact h
        · intro h
          show (match mergeEntries comps acc r with
            | Except.error e => Except.error e
            | Except.ok acc3 => mergeResults comps acc3 rest) = Except.ok m
          rw [hme]
          exact h
      have hr : ∀ e ∈ r, optStrTruthy (mapGet comps e.1) = true ∧ optStrTruthy e.2 = true :=
        (mergeEntries_ok_iff comps r acc).mp ⟨acc2, hme⟩
      constructor
      · intro hex r2 hr2
        rcases List.mem_cons.mp hr2 with h3 | h3
        · subst h3
          exact hr
        · exact ((ih acc2).mp ((exists_congr hiff).mp hex)) r2 h3
      · intro hall
        exact (exists_congr hiff).mpr
          ((ih acc2).mpr (fun r2 h3 => hall r2 (List.mem_cons_of_mem _ h3)))

/-- C3 (amended): the render requester succeeds exactly when every batch
call delivers a response without a truthy error field and every *returned*
`(identifier, URL)` entry has a truthy display name in the candidates map
and a truthy URL.  (Identifiers that the service omits from its response
are not validated — see the counterexample.) -/
theorem C3_render_requester_failure
    (api : Config → List String → Except String GetImagesResult)
    (comps : List (String × String)) (config : Config) :
    (∃ m, getFigmaFileSVGDownloadPaths api comps config = .ok m) ↔
      ∀ b ∈ getFigmaFileRequestBatches comps,
        ∃ res, api config b = .ok res ∧ optStrTruthy res.err = false ∧
          ∀ e ∈ res.images, optStrTruthy (mapGet comps e.1) = true ∧
            optStrTruthy e.2 = true := by
  constructor
  · rintro ⟨m, hm⟩
    replace hm : (match batchImagesAll api config (getFigmaFileRequestBatches comps) with
      | Except.error e => Except.error ("Failed to get image data from Figma: " ++ e)
      | Except.ok results =>
        match mergeResults comps [] results with
        | Except.error e => Except.error ("Failed to get image data from Figma: " ++ e)
        | Except.ok m2 => Except.ok m2) = Except.ok m := hm
    cases hb : batchImagesAll api config (getFigmaFileRequestBatches comps) with
    | error e => rw [hb] at hm; cases hm
    | ok rs =>
      rw [hb] at hm
      replace hm : (match mergeResults comps [] rs with
        | Except.error e => Except.error ("Failed to get image data from Figma: " ++ e)
        | Except.ok m2 => Except.ok m2) = Except.ok m := hm
      cases hmr : mergeResults comps [] rs with
      | error e => rw [hmr] at hm; cases hm
      | ok m2 =>
        intro b hbm
        obtain ⟨hfwd, hback⟩ := batchImagesAll_ok_elim api config _ rs hb
        obtain ⟨res, hres, herr, himem⟩ := hfwd b hbm
        refine ⟨res, hres, herr, ?_⟩
        have hall := (mergeResults_ok_iff comps rs []).mp ⟨m2, hmr⟩
        intro e he
        exact hall res.images himem e he
  · intro hall
    obtain ⟨rs, hrs⟩ := batchImagesAll_ok_intro api config _
      (fun b hb => (hall b hb).imp (fun res h => ⟨h.1, h.2.1⟩))
    obtain ⟨hfwd, hback⟩ := batchImagesAll_ok_elim api config _ rs hrs
    have hmerge : ∃ m, mergeResults comps [] rs = .ok m := by
      apply (mergeResults_ok_iff comps rs []).mpr
      intro r hr e he
      obtain ⟨b, hb, res, hres, herr, hreq⟩ := hback r hr
      obtain ⟨res2, hres2, herr2, hcond⟩ := hall b hb
      have heq : res2 = res := by
        rw [hres] at hres2
        exact (Except.ok.inj hres2).symm
      subst heq
      exact hcond e (by rw [← hreq]; exact he)
    obtain ⟨m, hm⟩ := hmerge
    refine ⟨m, ?_⟩
    show (match batchImagesAll api config (getFigmaFileRequestBatches comps) with
      | Except.error e => Except.error ("Failed to get image data from Figma: " ++ e)
      | Except.ok results =>
        match mergeResults comps [] results with
        | Except.error e => Except.error ("Failed to get image data from Figma: " ++ e)
        | Except.ok m2 => Except.ok m2) = Except.ok m
    rw [hrs]
    show (match mergeResults comps [] rs with
      | Except.error e => Except.error ("Failed to get image data from Figma: " ++ e)
      | Except.ok m2 => Except.ok m2) = Except.ok m
    rw [hm]

/-- C3 counterexample: the identifier 1:1 is requested, the service
delivers a response that omits it entirely, and the render requester
*succeeds* with an empty map instead of failing — so it does not validate
that every requested identifier received a URL. -/
theorem C3_missing_id_counterexample :
    getFigmaFileSVGDownloadPaths apiNoImages compsOne cfgBase = .ok [] ∧
    compsOne.map Prod.fst = ["1:1"] :=
  ⟨by decide, rfl⟩

/-- C3 witness: a service answering every requested identifier with a
non-empty URL makes the requester succeed. -/
theorem C3_render_requester_failure_witness :
    ∃ m, getFigmaFileSVGDownloadPaths apiAllUrls compsDup cfgBase = .ok m :=
  (C3_render_requester_failure apiAllUrls compsDup cfgBase).mpr (by
    intro b hb
    have hball : b = ["1:1", "1:2"] := by
      have hbs : getFigmaFileRequestBatches compsDup = [["1:1", "1:2"]] := by decide
      rw [hbs] at hb
      simpa using hb
    subst hball
    exact ⟨GetImagesResult.mk none
        [("1:1", some "https://cdn/1:1"), ("1:2", some "https://cdn/1:2")],
      by decide, by decide, by decide⟩)

theorem optStrTruthy_eq_some (o : Option String) (h : optStrTruthy o = true) :
    o = some (o.getD "") := by
  cases o with
  | none => simp [optStrTruthy] at h
  | some s => rfl

theorem mapGet_mem_values (m : List (String × String)) (k v : String)
    (h : mapGet m k = some v) : v ∈ m.map Prod.snd := by
  unfold mapGet at h
  cases hf : m.find? (fun p => p.1 == k) with
  | none => rw [hf] at h; cases h
  | some p =>
    rw [hf] at h
    have hp : p ∈ m := List.mem_of_find?_eq_some hf
    have hv : p.2 = v := by
      replace h : some p.2 = some v := h
      exact Option.some.inj h
    exact hv ▸ List.mem_map.mpr ⟨p, hp, rfl⟩

theorem mergeEntries_ok_keys (comps : List (String × String)) :
    ∀ (entries : List (String × Option String)) (acc m : List (String × String)),
      mergeEntries comps acc entries = .ok m →
      ((acc.map Prod.fst).Nodup → (m.map Prod.fst).Nodup) ∧
      (∀ x ∈ m.map Prod.fst, x ∈ acc.map Prod.fst ∨ x ∈ comps.map Prod.snd) := by
  intro entries
  induction entries with
  | nil =>
    intro acc m h
    replace h : Except.ok acc = Except.ok m := h
    cases h
    exact ⟨id, fun x hx => Or.inl hx⟩
  | cons e rest ih =>
    intro acc m h
    obtain ⟨nodeId, url⟩ := e
    replace h : (if optStrTruthy (mapGet comps nodeId) = false then
        Except.error ("No SVG name found for node " ++ nodeId ++
          " returned in get images response. Url: " ++
          (if optStrTruthy url then url.getD "" else "empty"))
      else if optStrTruthy url = false then
        Except.error ("No URL found for node " ++ nodeId ++ " (" ++
          (mapGet comps nodeId).getD "" ++ ") returned in get images response")
      else mergeEntries comps
        (mapSet acc ((mapGet comps nodeId).getD "") (url.getD "")) rest)
      = Except.ok m := h
    by_cases h1 : optStrTruthy (mapGet comps nodeId) = false
    · rw [if_pos h1] at h; cases h
    · rw [if_neg h1] at h
      by_cases h2 : optStrTruthy url = false
      · rw [if_pos h2] at h; cases h
      · rw [if_neg h2] at h
        obtain ⟨hnd, hsub⟩ := ih (mapSet acc ((mapGet comps nodeId).getD "") (url.getD "")) m h
        have hname : optStrTruthy (mapGet comps nodeId) = true := by simpa using h1
        have hsome : mapGet comps nodeId = some ((mapGet comps nodeId).getD "") :=
          optStrTruthy_eq_some _ hname
        constructor
        · intro hacc
          exact hnd (mapSet_keys_nodup acc _ _ hacc)
        · intro x hx
          rcases hsub x hx with h3 | h3
          · rcases mapSet_keys_mem acc _ _ x h3 with h4 | h4
            · exact Or.inl h4
            · subst h4
              exact Or.inr (mapGet_mem_values comps nodeId _ hsome)
          · exact Or.inr h3

theorem mergeResults_ok_keys (comps : List (String × String)) :
    ∀ (rs : List (List (String × Option String))) (acc m : List (String × String)),
      mergeResults comps acc rs = .ok m →
      ((acc.map Prod.fst).Nodup → (m.map Prod.fst).Nodup) ∧
      (∀ x ∈ m.map Prod.fst, x ∈ acc.map Prod.fst ∨ x ∈ comps.map Prod.snd) := by
  intro rs
  induction rs with
  | nil =>
    intro acc m h
    replace h : Except.ok acc = Except.ok m := h
    cases h
    exact ⟨id, fun x hx => Or.inl hx⟩
  | cons r rest ih =>
    intro acc m h
    replace h : (match mergeEntries comps acc r with
      | Except.error e => Except.error e
      | Except.ok acc2 => mergeResults comps acc2 rest) = Except.ok m := h
    cases hme : mergeEntries comps acc r with
    | error e => rw [hme] at h; cases h
    | ok acc2 =>
      rw [hme] at h
      obtain ⟨hnd1, hsub1⟩ := mergeEntries_ok_keys comps r acc acc2 hme
      obtain ⟨hnd2, hsub2⟩ := ih acc2 m h
      refine ⟨fun hacc => hnd2 (hnd1 hacc), fun x hx => ?_⟩
      rcases hsub2 x hx with h3 | h3
      · exact hsub1 x h3
      · exact Or.inr h3

theorem nodup_subset_length_le (l l2 : List String) (h1 : l.Nodup)
    (h2 : ∀ x ∈ l, x ∈ l2) : l.length ≤ l2.dedup.length := by
  have hc1 : l.toFinset.card = l.length := List.toFinset_card_of_nodup h1
  have hsub : l.toFinset ⊆ l2.toFinset := by
    intro x hx
    rw [List.mem_toFinset] at hx ⊢
    exact h2 x hx
  calc l.length = l.toFinset.card := hc1.symm
    _ ≤ l2.toFinset.card := Finset.card_le_card hsub
    _ = l2.dedup.length := List.card_toFinset l2

/-- C10: the RenderResult map is keyed by export name — its keys are
display names of candidates, are pairwise distinct, and its size is at
most the number of distinct display names; concretely, two identifiers
sharing one display name leave a single entry whose URL is the
later-merged one. -/
theorem C10_result_keyed_by_display_name :
    (∀ (api : Config → List String → Except String GetImagesResult)
        (comps : List (String × String)) (config : Config) (m : List (String × String)),
      getFigmaFileSVGDownloadPaths api comps config = .ok m →
        (m.map Prod.fst).Nodup ∧
        (∀ k ∈ m.map Prod.fst, k ∈ comps.map Prod.snd) ∧
        m.length ≤ (comps.map Prod.snd).dedup.length) ∧
    getFigmaFileSVGDownloadPaths apiAllUrls compsDup cfgBase =
      .ok [("icon", "https://cdn/1:2")] := by
  constructor
  · intro api comps config m hm
    replace hm : (match batchImagesAll api config (getFigmaFileRequestBatches comps) with
      | Except.error e => Except.error ("Failed to get image data from Figma: " ++ e)
      | Except.ok results =>
        match mergeResults comps [] results with
        | Except.error e => Except.error ("Failed to get image data from Figma: " ++ e)
        | Except.ok m2 => Except.ok m2) = Except.ok m := hm
    cases hb : batchImagesAll api config (getFigmaFileRequestBatches comps) with
    | error e => rw [hb] at hm; cases hm
    | ok rs =>
      rw [hb] at hm
      replace hm : (match mergeResults comps [] rs with
        | Except.error e => Except.error ("Failed to get image data from Figma: " ++ e)
        | Except.ok m2 => Except.ok m2) = Except.ok m := hm
      cases hmr : mergeResults comps [] rs with
      | error e => rw [hmr] at hm; cases hm
      | ok m2 =>
        rw [hmr] at hm
        cases hm
        obtain ⟨hnd, hsub⟩ := mergeResults_ok_keys comps rs [] m hmr
        have hnodup : (m.map Prod.fst).Nodup := hnd (by simp)
        have hsub2 : ∀ k ∈ m.map Prod.fst, k ∈ comps.map Prod.snd := by
          intro k hk
          rcases hsub k hk with h | h
          · simp at h
          · exact h
        refine ⟨hnodup, hsub2, ?_⟩
        have hlm : (m.map Prod.fst).length = m.length := by simp
        rw [← hlm]
        exact nodup_subset_length_le _ _ hnodup hsub2
  · decide

/-- C10 witness: the general key bound applied at the concrete overwrite
example. -/
theorem C10_result_keyed_by_display_name_witness :
    (([("icon", "https://cdn/1:2")] : List (String × String)).map Prod.fst).Nodup ∧
    (∀ k ∈ ([("icon", "https://cdn/1:2")] : List (String × String)).map Prod.fst,
      k ∈ compsDup.map Prod.snd) ∧
    ([("icon", "https://cdn/1:2")] : List (String × String)).length ≤
      (compsDup.map Prod.snd).dedup.length :=
  C10_result_keyed_by_display_name.1 apiAllUrls compsDup cfgBase
    [("icon", "https://cdn/1:2")] (by decide)

/-- C7 witness: a valid config whose scan finds nothing yields exit 0. -/
theorem C7_cli_exit_codes_witness :
    cli cfgBase gfNothing gpStub pdStub dlStub opStub = 0 :=
  (C7_cli_exit_codes cfgBase gfNothing gpStub pdStub dlStub opStub).2.mpr
    ⟨cfgBase, by decide, [], rfl, Or.inl rfl⟩

end FigmaExportSVG
